import Mathlib

/-!
Verification of the polymarket-compounder trading engine against its
natural-language specification.  The Python sources are shallowly embedded:
pure functions become Lean functions over `ℚ`, the stateful `RiskManager`
and `PositionTracker` become explicit state-passing functions, and fallible
operations return `Option`.
-/

namespace Compounder

/-- Configuration constants, mirroring `config.py`. -/
structure Config where
  ARB_THRESHOLD : ℚ
  SLIPPAGE_BUFFER : ℚ
  MIN_ARB_PROFIT_PCT : ℚ
  HIGH_PRIORITY_THRESHOLD : ℚ
  MAX_TRADE_USD : ℚ
  MIN_TRADE_USD : ℚ
  MAX_POSITION_PCT : ℚ
  MAX_TOTAL_EXPOSURE_PCT : ℚ
  MAX_CONSECUTIVE_LOSSES : ℕ
  MAX_DAILY_DRAWDOWN_PCT : ℚ
  MAX_SINGLE_LOSS_PCT : ℚ
  COOLDOWN_MINUTES : ℚ
  RECOVERY_POSITION_MULTIPLIER : ℚ
  RECOVERY_TRADE_COUNT : ℤ
  MAX_STRATEGY_EXPOSURE_PCT : ℚ
  ESTIMATED_FEE_RATE : ℚ
deriving Repr

/-- Default values from `config.py`. -/
def defaultConfig : Config where
  ARB_THRESHOLD := 985/1000
  SLIPPAGE_BUFFER := 5/1000
  MIN_ARB_PROFIT_PCT := 5/1000
  HIGH_PRIORITY_THRESHOLD := 94/100
  MAX_TRADE_USD := 100
  MIN_TRADE_USD := 2
  MAX_POSITION_PCT := 20/100
  MAX_TOTAL_EXPOSURE_PCT := 40/100
  MAX_CONSECUTIVE_LOSSES := 3
  MAX_DAILY_DRAWDOWN_PCT := 5/100
  MAX_SINGLE_LOSS_PCT := 3/100
  COOLDOWN_MINUTES := 30
  RECOVERY_POSITION_MULTIPLIER := 1/2
  RECOVERY_TRADE_COUNT := 5
  MAX_STRATEGY_EXPOSURE_PCT := 30/100
  ESTIMATED_FEE_RATE := 1/100

/-- Operating states of the risk manager (`RiskState` in `risk_manager.py`). -/
inductive RiskState where
  | NORMAL
  | COOLDOWN
  | RECOVERY
deriving DecidableEq, Repr

/-- Parameters of a proposed trade (`TradeRequest` in `risk_manager.py`). -/
structure TradeRequest where
  strategy : String
  token_id : String
  side : String
  price : ℚ
  size : ℚ
  max_loss_usd : ℚ
deriving Repr

/-- `TradeRequest.cost_usd`: USDC outlay for this trade. -/
def TradeRequest.cost_usd (t : TradeRequest) : ℚ := t.price * t.size

/-- Read-only view of the `PositionTracker` queries that `check_trade`
consults (`consecutive_losses`, `total_exposure`, `strategy_exposure`). -/
structure TrackerView where
  consecutive_losses : ℕ
  total_exposure : ℚ
  strategy_exposure : String → ℚ

/-- Mutable state of `RiskManager` (`__init__` fields). -/
structure RMState where
  state : RiskState
  cooldown_until : ℚ
  recovery_trades_remaining : ℤ
  day_start_balance : ℚ
  day_start_time : ℚ
  last_known_balance : ℚ
deriving Repr

/-- `RiskManager._enter_cooldown`: pause trading; 4x the base minutes when
`extended`. -/
def enter_cooldown (cfg : Config) (s : RMState) (extended : Bool) (now : ℚ) : RMState :=
  let minutes := cfg.COOLDOWN_MINUTES * (if extended then 4 else 1)
  { s with state := .COOLDOWN, cooldown_until := now + minutes * 60 }

/-- `RiskManager._enter_recovery`: transition from cooldown to recovery. -/
def enter_recovery (cfg : Config) (s : RMState) : RMState :=
  { s with state := .RECOVERY, recovery_trades_remaining := cfg.RECOVERY_TRADE_COUNT }

/-- `RiskManager.set_day_start_balance`. -/
def set_day_start_balance (s : RMState) (balance now : ℚ) : RMState :=
  { s with day_start_balance := balance, day_start_time := now }

/-- `RiskManager.get_position_multiplier`. -/
def get_position_multiplier (cfg : Config) (s : RMState) : ℚ :=
  if s.state = .RECOVERY then cfg.RECOVERY_POSITION_MULTIPLIER else 1

/-- `RiskManager.record_trade_completed`: during recovery, count down the
remaining trades; a loss re-enters extended cooldown, enough wins return to
NORMAL. -/
def record_trade_completed (cfg : Config) (s : RMState) (is_win : Bool) (now : ℚ) : RMState :=
  if s.state = .RECOVERY then
    let s1 := { s with recovery_trades_remaining := s.recovery_trades_remaining - 1 }
    if !is_win then enter_cooldown cfg s1 true now
    else if s1.recovery_trades_remaining ≤ 0 then { s1 with state := .NORMAL }
    else s1
  else s

/-- Rejection reasons produced by `check_trade`, one per gate (shallow
embedding of the human-readable reason strings). -/
inductive GateReason where
  | cooldownActive
  | dailyDrawdown
  | consecutiveLosses
  | singleTradeLoss
  | positionTooLarge
  | totalExposure
  | strategyExposure
  | tradeTooSmall
  | tradeTooLarge
deriving DecidableEq, Repr

/-- The gate chain of `RiskManager.check_trade` after the cooldown block
(lines 97-161 of `risk_manager.py`). -/
def check_gates (cfg : Config) (tr : TrackerView) (s : RMState) (trade : TradeRequest)
    (current_balance now : ℚ) : RMState × Bool × Option GateReason :=
  if 0 < s.day_start_balance ∧
      cfg.MAX_DAILY_DRAWDOWN_PCT ≤ (s.day_start_balance - current_balance) / s.day_start_balance then
    (enter_cooldown cfg s false now, false, some .dailyDrawdown)
  else if cfg.MAX_CONSECUTIVE_LOSSES ≤ tr.consecutive_losses ∧ s.state ≠ .RECOVERY then
    (enter_cooldown cfg s false now, false, some .consecutiveLosses)
  else if 0 < current_balance ∧ cfg.MAX_SINGLE_LOSS_PCT < trade.max_loss_usd / current_balance then
    (s, false, some .singleTradeLoss)
  else if 0 < current_balance ∧ cfg.MAX_POSITION_PCT < trade.cost_usd / current_balance then
    (s, false, some .positionTooLarge)
  else if 0 < current_balance ∧
      cfg.MAX_TOTAL_EXPOSURE_PCT < (tr.total_exposure + trade.cost_usd) / current_balance then
    (s, false, some .totalExposure)
  else if 0 < current_balance ∧
      cfg.MAX_STRATEGY_EXPOSURE_PCT
        < (tr.strategy_exposure trade.strategy + trade.cost_usd) / current_balance then
    (s, false, some .strategyExposure)
  else if trade.cost_usd < cfg.MIN_TRADE_USD then
    (s, false, some .tradeTooSmall)
  else if cfg.MAX_TRADE_USD < trade.cost_usd then
    (s, false, some .tradeTooLarge)
  else
    (s, true, none)

/-- `RiskManager.check_trade`: store the last known balance, handle the lazy
cooldown-to-recovery transition, then run the gate chain. -/
def check_trade (cfg : Config) (tr : TrackerView) (s : RMState) (trade : TradeRequest)
    (current_balance now : ℚ) : RMState × Bool × Option GateReason :=
  let s0 := { s with last_known_balance := current_balance }
  if s0.state = .COOLDOWN then
    if now < s0.cooldown_until then
      (s0, false, some .cooldownActive)
    else
      check_gates cfg tr (enter_recovery cfg s0) trade current_balance now
  else
    check_gates cfg tr s0 trade current_balance now

/-- `RiskManager.is_trading_allowed`. -/
def is_trading_allowed (s : RMState) (now : ℚ) : Bool :=
  if s.state = .COOLDOWN then decide (s.cooldown_until ≤ now) else true

/-- Arguments of one `check_trade` call, for reasoning about call sequences. -/
structure CheckCall where
  tr : TrackerView
  trade : TradeRequest
  balance : ℚ
  now : ℚ

/-- Run a sequence of `check_trade` calls, keeping only the evolving state. -/
def run_checks (cfg : Config) (s : RMState) (calls : List CheckCall) : RMState :=
  calls.foldl (fun st c => (check_trade cfg c.tr st c.trade c.balance c.now).1) s

/-- Apply `n` consecutive winning `record_trade_completed` notifications;
`nows` gives the (irrelevant for wins) clock reading of each call. -/
def apply_wins (cfg : Config) (nows : ℕ → ℚ) : ℕ → RMState → RMState
  | 0, s => s
  | n + 1, s => apply_wins cfg (fun i => nows (i + 1)) n (record_trade_completed cfg s true (nows 0))

/- ------------------------------------------------------------------
BookAnalyzer (`core/book_analyzer.py`)
------------------------------------------------------------------ -/

/-- One price level of an order-book side. -/
structure BookLevel where
  price : ℚ
  size : ℚ
deriving Repr

/-- Result of walking the order book (`FillEstimate` in `book_analyzer.py`). -/
structure FillEstimate where
  average_price : ℚ
  total_filled : ℚ
  total_cost : ℚ
  levels_consumed : ℕ
  fully_fillable : Bool
deriving Repr

/-- The loop of `walk_book_asks`: returns (remaining, total_cost,
levels_consumed).  At each level the walk consumes `min remaining size`,
stopping once `remaining ≤ 0`. -/
def walk_steps : List BookLevel → ℚ → ℚ × ℚ × ℕ
  | [], remaining => (remaining, 0, 0)
  | l :: ls, remaining =>
    if remaining ≤ 0 then (remaining, 0, 0)
    else
      let fill_qty := min remaining l.size
      let rest := walk_steps ls (remaining - fill_qty)
      (rest.1, fill_qty * l.price + rest.2.1, rest.2.2 + 1)

/-- `walk_book_asks`: walk the ask side to compute the real buy cost. -/
def walk_book_asks (asks : List BookLevel) (target_size : ℚ) : FillEstimate :=
  let r := walk_steps asks target_size
  let filled := target_size - r.1
  { average_price := if 0 < filled then r.2.1 / filled else 0
    total_filled := filled
    total_cost := r.2.1
    levels_consumed := r.2.2
    fully_fillable := decide (r.1 ≤ 0) }

/-- Spec-side notion: the quantity the greedy walk consumes at each level
(one entry per consumed level). -/
def consumedQty : List BookLevel → ℚ → List ℚ
  | [], _ => []
  | l :: ls, remaining =>
    if remaining ≤ 0 then []
    else min remaining l.size :: consumedQty ls (remaining - min remaining l.size)

/-- Spec-side: `Σ level.price × consumedAtLevel` over consumed levels. -/
def consumedCost (asks : List BookLevel) (target : ℚ) : ℚ :=
  (List.zipWith (fun (l : BookLevel) q => l.price * q) asks (consumedQty asks target)).sum

/-- Sum of all level sizes of a side. -/
def sumSizes (asks : List BookLevel) : ℚ := (asks.map BookLevel.size).sum

/- ------------------------------------------------------------------
PositionTracker (`core/position_tracker.py`)
------------------------------------------------------------------ -/

/-- A single position (`Position` dataclass). -/
structure Position where
  token_id : String
  market_id : String
  market_question : String
  side : String
  entry_price : ℚ
  size : ℚ
  strategy : String
  opened_at : ℚ
  exit_price : Option ℚ
  closed_at : Option ℚ
deriving DecidableEq, Repr

/-- `Position.is_open`. -/
def Position.is_open (p : Position) : Bool := p.exit_price.isNone

/-- `Position.cost_basis`. -/
def Position.cost_basis (p : Position) : ℚ := p.entry_price * p.size

/-- Immutable record of a completed trade (`TradeRecord` dataclass). -/
structure TradeRecord where
  timestamp : ℚ
  strategy : String
  market_name : String
  side : String
  entry_price : ℚ
  exit_price : ℚ
  size_usd : ℚ
  pnl_usd : ℚ
  pnl_pct : ℚ
  balance_after : ℚ
  phase : ℤ
deriving DecidableEq, Repr

/-- State of the `PositionTracker`. -/
structure PositionTracker where
  positions : List Position
  trade_history : List TradeRecord
  consecutive_losses : ℕ
  consecutive_wins : ℕ
  max_win_streak : ℕ
  max_loss_streak : ℕ
deriving Repr

/-- `PositionTracker.__init__`. -/
def emptyTracker : PositionTracker :=
  { positions := [], trade_history := [], consecutive_losses := 0,
    consecutive_wins := 0, max_win_streak := 0, max_loss_streak := 0 }

/-- `PositionTracker.open_position`: append a new open position. -/
def open_position (t : PositionTracker) (token_id market_id market_question side : String)
    (entry_price size : ℚ) (strategy : String) (now : ℚ) : PositionTracker :=
  { t with positions := t.positions ++
      [{ token_id := token_id, market_id := market_id, market_question := market_question,
         side := side, entry_price := entry_price, size := size, strategy := strategy,
         opened_at := now, exit_price := none, closed_at := none }] }

/-- `PositionTracker._find_open` combined with the mutation of the found
position: scan the list from the end (`reversed(positions)`), close the
first open position whose token matches, and return the updated list
together with the closed position. -/
def closeFromEnd (token_id : String) (exit_price now : ℚ) :
    List Position → Option (List Position × Position)
  | [] => none
  | p :: rest =>
    match closeFromEnd token_id exit_price now rest with
    | some (rest', q) => some (p :: rest', q)
    | none =>
      if p.token_id = token_id ∧ p.is_open then
        let p' := { p with exit_price := some exit_price, closed_at := some now }
        some (p' :: rest, p')
      else none

/-- `PositionTracker.close_position`: close the most recent open position for
the token, update streaks, and append a `TradeRecord`; `none` when no open
position matches. -/
def close_position (t : PositionTracker) (token_id : String) (exit_price balance_after : ℚ)
    (phase : ℤ) (now : ℚ) : PositionTracker × Option TradeRecord :=
  match closeFromEnd token_id exit_price now t.positions with
  | none => (t, none)
  | some (ps', p') =>
    let pnl := (exit_price - p'.entry_price) * p'.size
    let pnl_pct := if p'.entry_price = 0 then 0 else (exit_price - p'.entry_price) / p'.entry_price
    let record : TradeRecord :=
      { timestamp := now, strategy := p'.strategy, market_name := p'.market_question,
        side := p'.side, entry_price := p'.entry_price, exit_price := exit_price,
        size_usd := p'.cost_basis, pnl_usd := pnl, pnl_pct := pnl_pct,
        balance_after := balance_after, phase := phase }
    if 0 ≤ pnl then
      ({ t with positions := ps',
                trade_history := t.trade_history ++ [record],
                consecutive_wins := t.consecutive_wins + 1,
                consecutive_losses := 0,
                max_win_streak := max t.max_win_streak (t.consecutive_wins + 1) },
       some record)
    else
      ({ t with positions := ps',
                trade_history := t.trade_history ++ [record],
                consecutive_losses := t.consecutive_losses + 1,
                consecutive_wins := 0,
                max_loss_streak := max t.max_loss_streak (t.consecutive_losses + 1) },
       some record)

/-- `PositionTracker.total_exposure`. -/
def total_exposure (t : PositionTracker) : ℚ :=
  ((t.positions.filter (fun p => p.is_open)).map Position.cost_basis).sum

/-- `PositionTracker.strategy_exposure`. -/
def strategy_exposure (t : PositionTracker) (strategy : String) : ℚ :=
  ((t.positions.filter (fun p => p.is_open && p.strategy = strategy)).map Position.cost_basis).sum

/-- Tracker operations for reasoning about operation sequences. -/
inductive TrOp where
  | openP (token_id market_id market_question side : String)
      (entry_price size : ℚ) (strategy : String) (now : ℚ)
  | closeP (token_id : String) (exit_price balance_after : ℚ) (phase : ℤ) (now : ℚ)

/-- Apply one tracker operation. -/
def applyTrOp (t : PositionTracker) : TrOp → PositionTracker
  | .openP tok mid q side entry size strat now => open_position t tok mid q side entry size strat now
  | .closeP tok exit bal phase now => (close_position t tok exit bal phase now).1

/-- Apply a sequence of tracker operations from a starting state. -/
def applyTrOps (t : PositionTracker) (ops : List TrOp) : PositionTracker :=
  ops.foldl applyTrOp t

/-- Length of the run of elements satisfying `p` at the front of a list. -/
def runLength (p : TradeRecord → Bool) : List TradeRecord → ℕ
  | [] => 0
  | r :: rs => if p r then runLength p rs + 1 else 0

/-- Length of the trailing run of negative-PnL records in a history. -/
def trailingLossRun (h : List TradeRecord) : ℕ :=
  runLength (fun r => decide (r.pnl_usd < 0)) h.reverse

/-- Length of the trailing run of non-negative-PnL records in a history. -/
def trailingWinRun (h : List TradeRecord) : ℕ :=
  runLength (fun r => decide (0 ≤ r.pnl_usd)) h.reverse

/- ------------------------------------------------------------------
New-Market Sniper classification (`strategies/new_market_sniper.py`,
lines 109-124)
------------------------------------------------------------------ -/

/-- Priority classes assigned to a fresh market by the sniper. -/
inductive SniperClass where
  | skip
  | high
  | standard
deriving DecidableEq, Repr

/-- The classification block of `NewMarketSniper._evaluate_market`: skip when
the naive best-ask sum exceeds the literal `0.97`, high priority when it is
at most `HIGH_PRIORITY_THRESHOLD`, standard otherwise. -/
def classify_new_market (cfg : Config) (naive_sum : ℚ) : SniperClass :=
  if 97/100 < naive_sum then .skip
  else if naive_sum ≤ cfg.HIGH_PRIORITY_THRESHOLD then .high
  else .standard

/- ------------------------------------------------------------------
Oracle price confirmation (`strategies/resolution_arb.py`,
`_get_btc_price_confirmed`)
------------------------------------------------------------------ -/

/-- Python truthiness of an optional float (`None` and `0.0` are falsy). -/
def truthy : Option ℚ → Bool
  | none => false
  | some x => decide (x ≠ 0)

/-- Python `a or b` over optional floats. -/
def pyOr (a b : Option ℚ) : Option ℚ := if truthy a then a else b

/-- `ResolutionArb._get_btc_price_confirmed` as a function of the two oracle
responses: when both respond (truthily), return the average if their
relative difference is below 0.5 percent, else abstain; otherwise fall back
to whichever source responded (`return cg_price or bn_price`). -/
def get_btc_price_confirmed (cg_price bn_price : Option ℚ) : Option ℚ :=
  if truthy cg_price ∧ truthy bn_price then
    match cg_price, bn_price with
    | some cg, some bn =>
      let diff_pct := |cg - bn| / max cg bn
      if diff_pct < 5/1000 then some ((cg + bn) / 2) else none
    | _, _ => none
  else
    pyOr cg_price bn_price

/- ------------------------------------------------------------------
OrderManager paired-order timeout handling (`core/order_manager.py`)
------------------------------------------------------------------ -/

/-- Status of an order ticket (`OrderTicket.status`). -/
inductive LegStatus where
  | pending
  | submitted
  | filled
  | cancelled
  | failed
deriving DecidableEq, Repr

/-- One leg of a trade (`OrderTicket`). -/
structure OrderTicket where
  token_id : String
  side : String
  price : ℚ
  size : ℚ
  status : LegStatus
deriving DecidableEq, Repr

/-- Two legs of a sum-to-one arb (`PairedArbOrder`). -/
structure PairedArbOrder where
  yes_leg : OrderTicket
  no_leg : OrderTicket
deriving DecidableEq, Repr

/-- The sell order submitted by `_recover_filled_leg`:
`place_limit(ticket.token_id, "SELL", ticket.price, ticket.size)`. -/
structure RecoverySell where
  token_id : String
  side : String
  price : ℚ
  size : ℚ
deriving DecidableEq, Repr

/-- Timeout branch of `OrderManager._monitor_arb_fills` as a function of
which legs were observed filled at the deadline.  Returns the pair with
final statuses together with the recovery sell submitted for a lone filled
leg (if any).  The polling loop itself is real-time I/O; its outcome is
fully determined by the two fill flags. -/
def monitor_arb_fills (pair : PairedArbOrder) (yes_filled no_filled : Bool) :
    PairedArbOrder × Option RecoverySell :=
  if yes_filled ∧ no_filled then
    ({ yes_leg := { pair.yes_leg with status := .filled },
       no_leg := { pair.no_leg with status := .filled } }, none)
  else if yes_filled ∧ ¬ no_filled then
    ({ yes_leg := { pair.yes_leg with status := .filled },
       no_leg := { pair.no_leg with status := .cancelled } },
     some { token_id := pair.yes_leg.token_id, side := "SELL",
            price := pair.yes_leg.price, size := pair.yes_leg.size })
  else if no_filled ∧ ¬ yes_filled then
    ({ yes_leg := { pair.yes_leg with status := .cancelled },
       no_leg := { pair.no_leg with status := .filled } },
     some { token_id := pair.no_leg.token_id, side := "SELL",
            price := pair.no_leg.price, size := pair.no_leg.size })
  else
    ({ yes_leg := { pair.yes_leg with status := .cancelled },
       no_leg := { pair.no_leg with status := .cancelled } }, none)

/- ------------------------------------------------------------------
Sum-to-one arb ledger bookkeeping (`strategies/sum_to_one_arb.py`,
lines 178-215)
------------------------------------------------------------------ -/

/-- The position-tracking tail of `SumToOneArb._evaluate_market`: open a
ledger position for each filled leg; when both legs filled, close the YES
leg at 1.0 and then the NO leg at 0.0 against the simulated post-resolution
balance. -/
def arb_track_and_settle (t : PositionTracker) (yes_id no_id condition_id question : String)
    (yes_price no_price shares balance total_profit now : ℚ)
    (yes_status no_status : LegStatus) : PositionTracker :=
  let t1 := if yes_status = .filled then
      open_position t yes_id condition_id question "YES" yes_price shares "sum_to_one_arb" now
    else t
  let t2 := if no_status = .filled then
      open_position t1 no_id condition_id question "NO" no_price shares "sum_to_one_arb" now
    else t1
  if yes_status = .filled ∧ no_status = .filled then
    let new_balance := balance + total_profit
    let t3 := (close_position t2 yes_id 1 new_balance 0 now).1
    (close_position t3 no_id 0 new_balance 0 now).1
  else t2

/-- Number of open ledger positions whose token belongs to a given pair. -/
def countOpenFor (t : PositionTracker) (yes_id no_id : String) : ℕ :=
  (t.positions.filter (fun p => p.is_open && (p.token_id = yes_id || p.token_id = no_id))).length

/-- The streak bookkeeping invariant of the tracker. -/
def StreakInv (t : PositionTracker) : Prop :=
  t.consecutive_losses = trailingLossRun t.trade_history ∧
  t.consecutive_wins = trailingWinRun t.trade_history ∧
  t.consecutive_wins ≤ t.max_win_streak ∧
  t.consecutive_losses ≤ t.max_loss_streak

/-- A concrete tracker holding one open position, for witnesses. -/
def sampleOpenPos : Position :=
  { token_id := "tokA", market_id := "m1", market_question := "q1", side := "YES",
    entry_price := 0, size := 1, strategy := "s", opened_at := 0,
    exit_price := none, closed_at := none }

/-- The sample position after being closed at price 1 at time 0. -/
def sampleClosedPos : Position :=
  { sampleOpenPos with exit_price := some 1, closed_at := some 0 }

/-- A tracker whose only position is `sampleOpenPos`. -/
def sampleTracker : PositionTracker :=
  { emptyTracker with positions := [sampleOpenPos] }

/-- A position after `close_position` marks it closed. -/
def closedPos (p : Position) (exit now : ℚ) : Position :=
  { p with exit_price := some exit, closed_at := some now }

/-- The `TradeRecord` that closing position `p` at the given exit emits. -/
def recordOfClose (p : Position) (exit bal : ℚ) (phase : ℤ) (now : ℚ) : TradeRecord :=
  { timestamp := now, strategy := p.strategy, market_name := p.market_question,
    side := p.side, entry_price := p.entry_price, exit_price := exit,
    size_usd := p.cost_basis, pnl_usd := (exit - p.entry_price) * p.size,
    pnl_pct := if p.entry_price = 0 then 0 else (exit - p.entry_price) / p.entry_price,
    balance_after := bal, phase := phase }

/-- A concrete submitted arb pair for the C5 scenario. -/
def samplePair : PairedArbOrder :=
  { yes_leg := { token_id := "Y", side := "BUY", price := 1, size := 2, status := .submitted },
    no_leg := { token_id := "N", side := "BUY", price := 1, size := 2, status := .submitted } }

/-- The ledger after the strategy records the C5 timeout outcome (YES
filled, NO cancelled) of `samplePair` starting from an empty ledger. -/
def sampleTimeoutLedger : PositionTracker :=
  arb_track_and_settle emptyTracker "Y" "N" "c" "q" 1 1 2 100 0 0
    (monitor_arb_fills samplePair true false).1.yes_leg.status
    (monitor_arb_fills samplePair true false).1.no_leg.status

/-- A concrete cooldown state for the C1 witness. -/
def sampleCooldownState : RMState :=
  { state := .COOLDOWN, cooldown_until := 1000, recovery_trades_remaining := 0,
    day_start_balance := 100, day_start_time := 0, last_known_balance := 100 }

/-- A trivial tracker view for witnesses. -/
def sampleView : TrackerView :=
  { consecutive_losses := 0, total_exposure := 0, strategy_exposure := fun _ => 0 }

/-- A small trade request for witnesses. -/
def sampleTrade : TradeRequest :=
  { strategy := "s", token_id := "tokA", side := "BUY", price := 1, size := 5, max_loss_usd := 1 }

/-- A concrete freshly entered recovery state for the C2 witness. -/
def sampleRecoveryState : RMState :=
  { state := .RECOVERY, cooldown_until := 0, recovery_trades_remaining := 5,
    day_start_balance := 100, day_start_time := 0, last_known_balance := 100 }

/-- Spec-side rendering of the claimed gate list, in the claimed order:
cooldown active; daily drawdown at or above the limit; consecutive-loss
count at or above the limit (skipped when already in RECOVERY, including
the lazy transition performed at the head of the same call); worst-case
loss above `maxSingleLossPct × balance`; cost above `maxPositionPct ×
balance`; total exposure plus cost above `maxTotalExposurePct × balance`;
strategy exposure plus cost above `maxStrategyExposurePct × balance`; cost
below `minTradeCash`; cost above `maxTradeCash`; else approval. -/
def spec_check_trade (cfg : Config) (tr : TrackerView) (s : RMState) (trade : TradeRequest)
    (current_balance now : ℚ) : Bool × Option GateReason :=
  if s.state = RiskState.COOLDOWN ∧ now < s.cooldown_until then
    (false, some .cooldownActive)
  else if cfg.MAX_DAILY_DRAWDOWN_PCT ≤
      (s.day_start_balance - current_balance) / s.day_start_balance then
    (false, some .dailyDrawdown)
  else if cfg.MAX_CONSECUTIVE_LOSSES ≤ tr.consecutive_losses ∧
      ¬(s.state = RiskState.RECOVERY ∨
        (s.state = RiskState.COOLDOWN ∧ s.cooldown_until ≤ now)) then
    (false, some .consecutiveLosses)
  else if cfg.MAX_SINGLE_LOSS_PCT * current_balance < trade.max_loss_usd then
    (false, some .singleTradeLoss)
  else if cfg.MAX_POSITION_PCT * current_balance < trade.cost_usd then
    (false, some .positionTooLarge)
  else if cfg.MAX_TOTAL_EXPOSURE_PCT * current_balance < tr.total_exposure + trade.cost_usd then
    (false, some .totalExposure)
  else if cfg.MAX_STRATEGY_EXPOSURE_PCT * current_balance <
      tr.strategy_exposure trade.strategy + trade.cost_usd then
    (false, some .strategyExposure)
  else if trade.cost_usd < cfg.MIN_TRADE_USD then
    (false, some .tradeTooSmall)
  else if cfg.MAX_TRADE_USD < trade.cost_usd then
    (false, some .tradeTooLarge)
  else
    (true, none)

/- ==================================================================
Theorems
================================================================== -/

/- ---------- BookAnalyzer lemmas ---------- -/

theorem walk_steps_remaining_nonneg (asks : List BookLevel) :
    ∀ r : ℚ, 0 ≤ r → 0 ≤ (walk_steps asks r).1 := by
  induction asks with
  | nil => intro r h; simpa [walk_steps] using h
  | cons l ls ih =>
    intro r h
    by_cases hr : r ≤ 0
    · simpa [walk_steps, hr] using h
    · simp only [walk_steps, if_neg hr]
      exact ih _ (by simp [sub_nonneg, min_le_left])

theorem walk_steps_cost (asks : List BookLevel) :
    ∀ r : ℚ, (walk_steps asks r).2.1 = consumedCost asks r := by
  induction asks with
  | nil => intro r; simp [walk_steps, consumedCost, consumedQty]
  | cons l ls ih =>
    intro r
    by_cases hr : r ≤ 0
    · simp [walk_steps, consumedCost, consumedQty, hr]
    · simp only [walk_steps, if_neg hr, consumedCost, consumedQty,
        List.zipWith_cons_cons, List.sum_cons]
      rw [show ((List.zipWith (fun (l : BookLevel) q => l.price * q) ls
            (consumedQty ls (r - min r l.size))).sum) = consumedCost ls (r - min r l.size) from rfl]
      rw [← ih]
      ring

theorem sumSizes_nonneg (asks : List BookLevel) (hs : ∀ l ∈ asks, 0 ≤ l.size) :
    0 ≤ sumSizes asks := by
  refine List.sum_nonneg ?_
  intro x hx
  rcases List.mem_map.mp hx with ⟨l, hl, rfl⟩
  exact hs l hl

theorem walk_steps_size_bound : ∀ (asks : List BookLevel) (r : ℚ),
    (∀ l ∈ asks, 0 ≤ l.size) → r - (walk_steps asks r).1 ≤ sumSizes asks := by
  intro asks
  induction asks with
  | nil => intro r _; simp [walk_steps, sumSizes]
  | cons l ls ih =>
    intro r hs
    have hl : 0 ≤ l.size := hs l (List.mem_cons_self _ _)
    have hls : ∀ x ∈ ls, 0 ≤ x.size := fun x hx => hs x (List.mem_cons_of_mem _ hx)
    have hsum : 0 ≤ sumSizes ls := sumSizes_nonneg ls hls
    have hsplit : sumSizes (l :: ls) = l.size + sumSizes ls := by simp [sumSizes]
    by_cases hr : r ≤ 0
    · simp only [walk_steps, if_pos hr, hsplit]
      linarith
    · simp only [walk_steps, if_neg hr, hsplit]
      have h1 : min r l.size ≤ l.size := min_le_right _ _
      have h2 := ih (r - min r l.size) hls
      linarith

/-- C4: for every price-level sequence with non-negative sizes and every
positive target share count, the ask-side walk yields a fill no larger than
the target and than the total book depth, a total cost equal to the sum over
consumed levels of price times consumed quantity, an average price equal to
`totalCost / totalFilled` whenever something filled, and `fullyFillable`
exactly when the whole target filled. -/
theorem walk_book_asks_invariants (asks : List BookLevel) (target : ℚ)
    (hT : 0 < target) (hs : ∀ l ∈ asks, 0 ≤ l.size) :
    (walk_book_asks asks target).total_filled ≤ target ∧
    (walk_book_asks asks target).total_filled ≤ sumSizes asks ∧
    (walk_book_asks asks target).total_cost = consumedCost asks target ∧
    (0 < (walk_book_asks asks target).total_filled →
      (walk_book_asks asks target).average_price =
        (walk_book_asks asks target).total_cost / (walk_book_asks asks target).total_filled) ∧
    ((walk_book_asks asks target).fully_fillable = true ↔
      (walk_book_asks asks target).total_filled = target) := by
  have hrem : 0 ≤ (walk_steps asks target).1 :=
    walk_steps_remaining_nonneg asks target hT.le
  refine ⟨?_, ?_, ?_, ?_, ?_⟩
  · show target - (walk_steps asks target).1 ≤ target
    linarith
  · show target - (walk_steps asks target).1 ≤ sumSizes asks
    exact walk_steps_size_bound asks target hs
  · exact walk_steps_cost asks target
  · intro hf
    show (if 0 < target - (walk_steps asks target).1 then
        (walk_steps asks target).2.1 / (target - (walk_steps asks target).1) else 0) = _
    rw [if_pos (show (0:ℚ) < target - (walk_steps asks target).1 from hf)]
    rfl
  · show (decide ((walk_steps asks target).1 ≤ 0) = true) ↔ _
    rw [decide_eq_true_eq]
    constructor
    · intro h
      have : (walk_steps asks target).1 = 0 := le_antisymm h hrem
      simp [walk_book_asks, this]
    · intro h
      have : target - (walk_steps asks target).1 = target := h
      have : (walk_steps asks target).1 = 0 := by linarith
      simp [this]

/-- Witness for C4 at a concrete one-level book. -/
theorem walk_book_asks_invariants_witness :
    (0:ℚ) < 2 ∧ (∀ l ∈ [({ price := 1, size := 3 } : BookLevel)], 0 ≤ l.size) ∧
    ((walk_book_asks [{ price := 1, size := 3 }] 2).total_filled ≤ 2 ∧
     (walk_book_asks [{ price := 1, size := 3 }] 2).total_filled ≤
       sumSizes [{ price := 1, size := 3 }] ∧
     (walk_book_asks [{ price := 1, size := 3 }] 2).total_cost =
       consumedCost [{ price := 1, size := 3 }] 2 ∧
     (0 < (walk_book_asks [{ price := 1, size := 3 }] 2).total_filled →
       (walk_book_asks [{ price := 1, size := 3 }] 2).average_price =
         (walk_book_asks [{ price := 1, size := 3 }] 2).total_cost /
           (walk_book_asks [{ price := 1, size := 3 }] 2).total_filled) ∧
     ((walk_book_asks [{ price := 1, size := 3 }] 2).fully_fillable = true ↔
       (walk_book_asks [{ price := 1, size := 3 }] 2).total_filled = 2)) :=
  ⟨by decide, by decide,
   walk_book_asks_invariants [{ price := 1, size := 3 }] 2 (by decide) (by decide)⟩

/- ---------- PositionTracker streak lemmas ---------- -/

theorem trailingLossRun_append (h : List TradeRecord) (r : TradeRecord) :
    trailingLossRun (h ++ [r]) =
      if r.pnl_usd < 0 then trailingLossRun h + 1 else 0 := by
  simp only [trailingLossRun, List.reverse_append, List.reverse_cons, List.reverse_nil,
    List.nil_append, List.cons_append, runLength]
  by_cases hr : r.pnl_usd < 0 <;> simp [hr]

theorem trailingWinRun_append (h : List TradeRecord) (r : TradeRecord) :
    trailingWinRun (h ++ [r]) =
      if 0 ≤ r.pnl_usd then trailingWinRun h + 1 else 0 := by
  simp only [trailingWinRun, List.reverse_append, List.reverse_cons, List.reverse_nil,
    List.nil_append, List.cons_append, runLength]
  by_cases hr : (0:ℚ) ≤ r.pnl_usd <;> simp [hr]


theorem streakInv_applyTrOp (t : PositionTracker) (op : TrOp) (h : StreakInv t) :
    StreakInv (applyTrOp t op) := by
  obtain ⟨h1, h2, h3, h4⟩ := h
  cases op with
  | openP tok mid q side entry size strat now =>
    exact ⟨h1, h2, h3, h4⟩
  | closeP tok exit bal phase now =>
    show StreakInv (close_position t tok exit bal phase now).1
    rcases hcl : closeFromEnd tok exit now t.positions with _ | ⟨ps', p'⟩
    · simpa [close_position, hcl] using ⟨h1, h2, h3, h4⟩
    · by_cases hp : (0:ℚ) ≤ (exit - p'.entry_price) * p'.size
      · have hrec : ¬ (exit - p'.entry_price) * p'.size < 0 := not_lt.mpr hp
        refine ⟨?_, ?_, ?_, ?_⟩ <;>
          simp [close_position, hcl, if_pos hp, trailingLossRun_append,
            trailingWinRun_append, hrec, hp, h1, h2, h3, h4, StreakInv]
      · have hlt : (exit - p'.entry_price) * p'.size < 0 := not_le.mp hp
        refine ⟨?_, ?_, ?_, ?_⟩ <;>
          simp [close_position, hcl, if_neg hp, trailingLossRun_append,
            trailingWinRun_append, hlt, not_le.mpr hlt, h1, h2, h3, h4, StreakInv]

theorem streakInv_foldl (ops : List TrOp) : ∀ t : PositionTracker,
    StreakInv t → StreakInv (ops.foldl applyTrOp t) := by
  induction ops with
  | nil => intro t h; exact h
  | cons op rest ih => intro t h; exact ih _ (streakInv_applyTrOp t op h)

theorem streakInv_applyTrOps (ops : List TrOp) :
    StreakInv (applyTrOps emptyTracker ops) :=
  streakInv_foldl ops emptyTracker ⟨rfl, rfl, le_refl _, le_refl _⟩

/-- C8: a close with non-negative PnL increments `consecutive_wins` and
resets `consecutive_losses`, a close with negative PnL does the opposite,
peak streak values never decrease, and after any sequence of opens and
closes the streak counters equal the lengths of the trailing negative-PnL
and non-negative-PnL runs of the trade history. -/
theorem streak_semantics :
    (∀ ops : List TrOp,
       (applyTrOps emptyTracker ops).consecutive_losses =
         trailingLossRun (applyTrOps emptyTracker ops).trade_history ∧
       (applyTrOps emptyTracker ops).consecutive_wins =
         trailingWinRun (applyTrOps emptyTracker ops).trade_history ∧
       (applyTrOps emptyTracker ops).consecutive_wins ≤
         (applyTrOps emptyTracker ops).max_win_streak ∧
       (applyTrOps emptyTracker ops).consecutive_losses ≤
         (applyTrOps emptyTracker ops).max_loss_streak) ∧
    (∀ (t : PositionTracker) (op : TrOp),
       t.max_win_streak ≤ (applyTrOp t op).max_win_streak ∧
       t.max_loss_streak ≤ (applyTrOp t op).max_loss_streak) ∧
    (∀ (t : PositionTracker) (token : String) (exit bal now : ℚ) (phase : ℤ)
       (ps' : List Position) (p' : Position),
       closeFromEnd token exit now t.positions = some (ps', p') →
       (0 ≤ (exit - p'.entry_price) * p'.size →
         (close_position t token exit bal phase now).1.consecutive_wins =
           t.consecutive_wins + 1 ∧
         (close_position t token exit bal phase now).1.consecutive_losses = 0) ∧
       ((exit - p'.entry_price) * p'.size < 0 →
         (close_position t token exit bal phase now).1.consecutive_losses =
           t.consecutive_losses + 1 ∧
         (close_position t token exit bal phase now).1.consecutive_wins = 0)) := by
  refine ⟨?_, ?_, ?_⟩
  · intro ops
    exact streakInv_applyTrOps ops
  · intro t op
    cases op with
    | openP tok mid q side entry size strat now => exact ⟨le_refl _, le_refl _⟩
    | closeP tok exit bal phase now =>
      show t.max_win_streak ≤ (close_position t tok exit bal phase now).1.max_win_streak ∧
        t.max_loss_streak ≤ (close_position t tok exit bal phase now).1.max_loss_streak
      rcases hcl : closeFromEnd tok exit now t.positions with _ | ⟨ps', p'⟩
      · simp [close_position, hcl]
      · by_cases hp : (0:ℚ) ≤ (exit - p'.entry_price) * p'.size
        · constructor <;> simp [close_position, hcl, if_pos hp, le_max_left]
        · constructor <;> simp [close_position, hcl, if_neg hp, le_max_left]
  · intro t token exit bal now phase ps' p' hcl
    constructor
    · intro hp
      constructor <;> simp [close_position, hcl, if_pos hp]
    · intro hp
      constructor <;> simp [close_position, hcl, if_neg (not_le.mpr hp)]




/-- Witness for C8 at concrete inputs. -/
theorem streak_semantics_witness :
    ((applyTrOps emptyTracker []).consecutive_losses =
       trailingLossRun (applyTrOps emptyTracker []).trade_history ∧
     (applyTrOps emptyTracker []).consecutive_wins =
       trailingWinRun (applyTrOps emptyTracker []).trade_history ∧
     (applyTrOps emptyTracker []).consecutive_wins ≤
       (applyTrOps emptyTracker []).max_win_streak ∧
     (applyTrOps emptyTracker []).consecutive_losses ≤
       (applyTrOps emptyTracker []).max_loss_streak) ∧
    (sampleTracker.max_win_streak ≤
       (applyTrOp sampleTracker (.closeP "tokA" 1 5 0 0)).max_win_streak ∧
     sampleTracker.max_loss_streak ≤
       (applyTrOp sampleTracker (.closeP "tokA" 1 5 0 0)).max_loss_streak) ∧
    (closeFromEnd "tokA" 1 0 sampleTracker.positions =
       some ([sampleClosedPos], sampleClosedPos) ∧
     (0 ≤ (1 - sampleClosedPos.entry_price) * sampleClosedPos.size ∧
       (close_position sampleTracker "tokA" 1 5 0 0).1.consecutive_wins =
         sampleTracker.consecutive_wins + 1 ∧
       (close_position sampleTracker "tokA" 1 5 0 0).1.consecutive_losses = 0)) := by
  refine ⟨streak_semantics.1 [], streak_semantics.2.1 sampleTracker (.closeP "tokA" 1 5 0 0), ?_, ?_, ?_, ?_⟩
  · rfl
  · show (0:ℚ) ≤ (1 - 0) * 1
    simp
  · exact ((streak_semantics.2.2 sampleTracker "tokA" 1 5 0 0 [sampleClosedPos]
      sampleClosedPos rfl).1 (by show (0:ℚ) ≤ (1 - 0) * 1; simp)).1
  · exact ((streak_semantics.2.2 sampleTracker "tokA" 1 5 0 0 [sampleClosedPos]
      sampleClosedPos rfl).1 (by show (0:ℚ) ≤ (1 - 0) * 1; simp)).2

/- ---------- close_position lookup lemmas ---------- -/

theorem closeFromEnd_none (token : String) (exit now : ℚ) :
    ∀ l : List Position, (∀ p ∈ l, ¬(p.token_id = token ∧ p.is_open = true)) →
      closeFromEnd token exit now l = none := by
  intro l
  induction l with
  | nil => intro _; rfl
  | cons a rest ih =>
    intro h
    have hrest := ih (fun p hp => h p (List.mem_cons_of_mem _ hp))
    have ha := h a (List.mem_cons_self _ _)
    simp only [closeFromEnd, hrest]
    rw [if_neg]
    intro ⟨h1, h2⟩
    exact ha ⟨h1, h2⟩


theorem closeFromEnd_found (token : String) (exit now : ℚ) :
    ∀ (pre : List Position) (p : Position) (post : List Position),
      p.token_id = token → p.is_open = true →
      (∀ q ∈ post, ¬(q.token_id = token ∧ q.is_open = true)) →
      closeFromEnd token exit now (pre ++ p :: post) =
        some (pre ++ closedPos p exit now :: post, closedPos p exit now) := by
  intro pre
  induction pre with
  | nil =>
    intro p post hp hopen hpost
    have hrest := closeFromEnd_none token exit now post hpost
    simp only [List.nil_append, closeFromEnd, hrest]
    rw [if_pos ⟨hp, hopen⟩]
    rfl
  | cons a pre ih =>
    intro p post hp hopen hpost
    have := ih p post hp hopen hpost
    simp only [List.cons_append, closeFromEnd, List.append_eq, this]


/-- C9: `close_position` on a token with no still-open position returns
nothing and leaves the whole tracker unchanged; when open positions for the
token exist, it closes exactly the most recently opened still-open one,
emits the corresponding `TradeRecord`, and leaves all other positions
unchanged. -/
theorem close_position_semantics :
    (∀ (t : PositionTracker) (token : String) (exit bal : ℚ) (phase : ℤ) (now : ℚ),
       (∀ p ∈ t.positions, ¬(p.token_id = token ∧ p.is_open = true)) →
       close_position t token exit bal phase now = (t, none)) ∧
    (∀ (t : PositionTracker) (token : String) (exit bal : ℚ) (phase : ℤ) (now : ℚ)
       (pre : List Position) (p : Position) (post : List Position),
       t.positions = pre ++ p :: post →
       p.token_id = token → p.is_open = true →
       (∀ q ∈ post, ¬(q.token_id = token ∧ q.is_open = true)) →
       (close_position t token exit bal phase now).1.positions =
         pre ++ closedPos p exit now :: post ∧
       (close_position t token exit bal phase now).2 =
         some (recordOfClose p exit bal phase now) ∧
       (close_position t token exit bal phase now).1.trade_history =
         t.trade_history ++ [recordOfClose p exit bal phase now]) := by
  constructor
  · intro t token exit bal phase now h
    have := closeFromEnd_none token exit now t.positions h
    simp [close_position, this]
  · intro t token exit bal phase now pre p post hpos hp hopen hpost
    have hfind : closeFromEnd token exit now t.positions =
        some (pre ++ closedPos p exit now :: post, closedPos p exit now) := by
      rw [hpos]; exact closeFromEnd_found token exit now pre p post hp hopen hpost
    have hrec : ∀ b : ℚ, ∀ ph : ℤ,
        ({ timestamp := now, strategy := (closedPos p exit now).strategy,
           market_name := (closedPos p exit now).market_question,
           side := (closedPos p exit now).side,
           entry_price := (closedPos p exit now).entry_price, exit_price := exit,
           size_usd := (closedPos p exit now).cost_basis,
           pnl_usd := (exit - (closedPos p exit now).entry_price) * (closedPos p exit now).size,
           pnl_pct := if (closedPos p exit now).entry_price = 0 then 0
             else (exit - (closedPos p exit now).entry_price) / (closedPos p exit now).entry_price,
           balance_after := b, phase := ph } : TradeRecord) = recordOfClose p exit b ph now := by
      intro b ph; rfl
    by_cases hpnl : (0:ℚ) ≤ (exit - (closedPos p exit now).entry_price) * (closedPos p exit now).size
    · refine ⟨?_, ?_, ?_⟩ <;>
        simp [close_position, hfind, if_pos hpnl, ← hrec bal phase]
    · refine ⟨?_, ?_, ?_⟩ <;>
        simp [close_position, hfind, if_neg hpnl, ← hrec bal phase]

/-- Witness for C9: an empty tracker rejects a close, and the sample tracker
closes its single open position. -/
theorem close_position_semantics_witness :
    (close_position emptyTracker "tokA" 1 5 0 0 = (emptyTracker, none)) ∧
    ((close_position sampleTracker "tokA" 1 5 0 0).1.positions =
       [] ++ closedPos sampleOpenPos 1 0 :: [] ∧
     (close_position sampleTracker "tokA" 1 5 0 0).2 =
       some (recordOfClose sampleOpenPos 1 5 0 0) ∧
     (close_position sampleTracker "tokA" 1 5 0 0).1.trade_history =
       sampleTracker.trade_history ++ [recordOfClose sampleOpenPos 1 5 0 0]) := by
  constructor
  · exact close_position_semantics.1 emptyTracker "tokA" 1 5 0 0 (by simp [emptyTracker])
  · exact close_position_semantics.2 sampleTracker "tokA" 1 5 0 0 [] sampleOpenPos []
      rfl rfl rfl (by simp)

/-- Field-level description of a successful `close_position`. -/
theorem close_position_found_fields (t : PositionTracker) (token : String)
    (exit bal : ℚ) (phase : ℤ) (now : ℚ)
    (pre : List Position) (p : Position) (post : List Position)
    (hpos : t.positions = pre ++ p :: post) (hp : p.token_id = token)
    (hopen : p.is_open = true)
    (hpost : ∀ q ∈ post, ¬(q.token_id = token ∧ q.is_open = true)) :
    (close_position t token exit bal phase now).1.positions =
      pre ++ closedPos p exit now :: post ∧
    (close_position t token exit bal phase now).1.trade_history =
      t.trade_history ++ [recordOfClose p exit bal phase now] ∧
    (0 ≤ (exit - p.entry_price) * p.size →
      (close_position t token exit bal phase now).1.consecutive_wins =
        t.consecutive_wins + 1 ∧
      (close_position t token exit bal phase now).1.consecutive_losses = 0) ∧
    ((exit - p.entry_price) * p.size < 0 →
      (close_position t token exit bal phase now).1.consecutive_losses =
        t.consecutive_losses + 1 ∧
      (close_position t token exit bal phase now).1.consecutive_wins = 0) := by
  have hfind : closeFromEnd token exit now t.positions =
      some (pre ++ closedPos p exit now :: post, closedPos p exit now) := by
    rw [hpos]; exact closeFromEnd_found token exit now pre p post hp hopen hpost
  have hrec :
      ({ timestamp := now, strategy := (closedPos p exit now).strategy,
         market_name := (closedPos p exit now).market_question,
         side := (closedPos p exit now).side,
         entry_price := (closedPos p exit now).entry_price, exit_price := exit,
         size_usd := (closedPos p exit now).cost_basis,
         pnl_usd := (exit - (closedPos p exit now).entry_price) * (closedPos p exit now).size,
         pnl_pct := if (closedPos p exit now).entry_price = 0 then 0
           else (exit - (closedPos p exit now).entry_price) / (closedPos p exit now).entry_price,
         balance_after := bal, phase := phase } : TradeRecord) =
        recordOfClose p exit bal phase now := rfl
  by_cases hpnl : (0:ℚ) ≤ (exit - (closedPos p exit now).entry_price) * (closedPos p exit now).size
  · have hpnl' : (0:ℚ) ≤ (exit - p.entry_price) * p.size := hpnl
    refine ⟨?_, ?_, fun _ => ⟨?_, ?_⟩, fun hneg => absurd hpnl' (not_le.mpr hneg)⟩ <;>
      simp [close_position, hfind, if_pos hpnl, ← hrec]
  · have hpnl' : ¬ (0:ℚ) ≤ (exit - p.entry_price) * p.size := hpnl
    refine ⟨?_, ?_, fun hge => absurd hge hpnl', fun _ => ⟨?_, ?_⟩⟩ <;>
      simp [close_position, hfind, if_neg hpnl, ← hrec]

/-- C10: after a both-filled sum-to-one arb execution with positive entry
prices summing below one and positive size, the ledger gains two trade
records (YES closed at 1.0 as a non-negative-PnL trade, then NO closed at
0.0 as a negative-PnL trade), leaving `consecutive_wins = 0` and
`consecutive_losses = 1` — the counter the risk manager's consecutive-loss
gate reads. -/
theorem arb_settle_registers_trailing_loss (t : PositionTracker)
    (yes_id no_id cid q : String) (yes_price no_price shares balance profit now : ℚ)
    (hne : yes_id ≠ no_id) (_hy : 0 < yes_price) (hn : 0 < no_price)
    (hsum : yes_price + no_price < 1) (hsh : 0 < shares) :
    (arb_track_and_settle t yes_id no_id cid q yes_price no_price shares balance profit now
        .filled .filled).consecutive_wins = 0 ∧
    (arb_track_and_settle t yes_id no_id cid q yes_price no_price shares balance profit now
        .filled .filled).consecutive_losses = 1 ∧
    (arb_track_and_settle t yes_id no_id cid q yes_price no_price shares balance profit now
        .filled .filled).trade_history.length = t.trade_history.length + 2 := by
  have harb : arb_track_and_settle t yes_id no_id cid q yes_price no_price shares balance profit now
      .filled .filled =
      (close_position
        ((close_position
          (open_position (open_position t yes_id cid q "YES" yes_price shares "sum_to_one_arb" now)
            no_id cid q "NO" no_price shares "sum_to_one_arb" now)
          yes_id 1 (balance + profit) 0 now).1)
        no_id 0 (balance + profit) 0 now).1 := by
    simp [arb_track_and_settle]
  set yesPos : Position :=
    { token_id := yes_id, market_id := cid, market_question := q, side := "YES",
      entry_price := yes_price, size := shares, strategy := "sum_to_one_arb",
      opened_at := now, exit_price := none, closed_at := none } with hyes
  set noPos : Position :=
    { token_id := no_id, market_id := cid, market_question := q, side := "NO",
      entry_price := no_price, size := shares, strategy := "sum_to_one_arb",
      opened_at := now, exit_price := none, closed_at := none } with hno
  set t2 := open_position (open_position t yes_id cid q "YES" yes_price shares "sum_to_one_arb" now)
      no_id cid q "NO" no_price shares "sum_to_one_arb" now with ht2
  have ht2pos : t2.positions = t.positions ++ yesPos :: [noPos] := by
    simp [ht2, open_position, hyes, hno]
  have ht2hist : t2.trade_history = t.trade_history := by simp [ht2, open_position]
  have ht2wins : t2.consecutive_wins = t.consecutive_wins := by simp [ht2, open_position]
  have hfirst := close_position_found_fields t2 yes_id 1 (balance + profit) 0 now
      t.positions yesPos [noPos] ht2pos rfl rfl
      (by intro x hx
          simp only [List.mem_singleton] at hx
          subst hx
          intro ⟨hx1, _⟩
          exact hne (hx1.symm))
  have hywin : (0:ℚ) ≤ (1 - yesPos.entry_price) * yesPos.size := by
    have : yes_price < 1 := by linarith
    have h1 : (0:ℚ) < 1 - yes_price := by linarith
    have := mul_pos h1 hsh
    simp only [hyes]
    linarith
  set t3 := (close_position t2 yes_id 1 (balance + profit) 0 now).1 with ht3
  have ht3pos : t3.positions = (t.positions ++ [closedPos yesPos 1 now]) ++ noPos :: [] := by
    rw [ht3, hfirst.1]
    simp
  have ht3wins := (hfirst.2.2.1 hywin).1
  have ht3losses := (hfirst.2.2.1 hywin).2
  have ht3hist := hfirst.2.1
  have hsecond := close_position_found_fields t3 no_id 0 (balance + profit) 0 now
      (t.positions ++ [closedPos yesPos 1 now]) noPos [] ht3pos rfl rfl
      (by intro x hx; simp at hx)
  have hnloss : (0 - noPos.entry_price) * noPos.size < 0 := by
    simp only [hno]
    have := mul_pos hn hsh
    nlinarith
  rw [harb]
  refine ⟨?_, ?_, ?_⟩
  · exact (hsecond.2.2.2 hnloss).2
  · rw [(hsecond.2.2.2 hnloss).1, ht3losses]
  · rw [hsecond.2.1, ht3hist, ht2hist]
    simp

/-- Witness for C10 at concrete prices 2/5 and 2/5 on tokens "Y" and "N". -/
theorem arb_settle_registers_trailing_loss_witness :
    ("Y" : String) ≠ "N" ∧
    ((arb_track_and_settle emptyTracker "Y" "N" "c" "q" (2/5) (2/5) 10 100 2 0
        .filled .filled).consecutive_wins = 0 ∧
     (arb_track_and_settle emptyTracker "Y" "N" "c" "q" (2/5) (2/5) 10 100 2 0
        .filled .filled).consecutive_losses = 1 ∧
     (arb_track_and_settle emptyTracker "Y" "N" "c" "q" (2/5) (2/5) 10 100 2 0
        .filled .filled).trade_history.length = emptyTracker.trade_history.length + 2) :=
  ⟨by decide,
   arb_settle_registers_trailing_loss emptyTracker "Y" "N" "c" "q" (2/5) (2/5) 10 100 2 0
     (by decide) (by norm_num) (by norm_num) (by norm_num) (by norm_num)⟩

/- ---------- C7: new-market sniper classification ---------- -/

/-- C7 counterexample: at naive ask sum 0.98 — strictly above the high
priority threshold 0.94 and at most the arb threshold 0.985, where the
claim predicts standard priority — the code skips the market, because the
skip test compares against the literal 0.97, not `ARB_THRESHOLD`. -/
theorem sniper_threshold_counterexample :
    classify_new_market defaultConfig (98/100) = SniperClass.skip ∧
    defaultConfig.HIGH_PRIORITY_THRESHOLD < 98/100 ∧
    (98:ℚ)/100 ≤ defaultConfig.ARB_THRESHOLD ∧
    classify_new_market defaultConfig (98/100) ≠ SniperClass.standard := by
  have h : classify_new_market defaultConfig (98/100) = SniperClass.skip := by
    rw [classify_new_market, if_pos (by norm_num [defaultConfig])]
  refine ⟨h, by norm_num [defaultConfig], by norm_num [defaultConfig], ?_⟩
  rw [h]
  intro hcontra
  exact SniperClass.noConfusion hcontra

/-- C7 amended: classification is a function of the naive best-ask sum `s`
with the skip cutoff at the hardcoded 0.97 (not `ARB_THRESHOLD`): `s ≤
highPriorityThreshold` is high priority, `highPriorityThreshold < s ≤ 0.97`
is standard priority, and `s > 0.97` is skipped. -/
theorem sniper_classification_amended (cfg : Config) (s : ℚ)
    (hth : cfg.HIGH_PRIORITY_THRESHOLD ≤ 97/100) :
    (s ≤ cfg.HIGH_PRIORITY_THRESHOLD → classify_new_market cfg s = SniperClass.high) ∧
    (cfg.HIGH_PRIORITY_THRESHOLD < s ∧ s ≤ 97/100 →
      classify_new_market cfg s = SniperClass.standard) ∧
    (97/100 < s → classify_new_market cfg s = SniperClass.skip) := by
  refine ⟨?_, ?_, ?_⟩
  · intro hs
    rw [classify_new_market, if_neg (by push_neg; linarith), if_pos hs]
  · intro ⟨h1, h2⟩
    rw [classify_new_market, if_neg (by push_neg; linarith), if_neg (by push_neg; exact h1)]
  · intro hs
    rw [classify_new_market, if_pos hs]

/-- Witness for the amended C7 at the default config and sum 0.95. -/
theorem sniper_classification_amended_witness :
    defaultConfig.HIGH_PRIORITY_THRESHOLD ≤ 97/100 ∧
    (((95:ℚ)/100 ≤ defaultConfig.HIGH_PRIORITY_THRESHOLD →
       classify_new_market defaultConfig (95/100) = SniperClass.high) ∧
     (defaultConfig.HIGH_PRIORITY_THRESHOLD < 95/100 ∧ (95:ℚ)/100 ≤ 97/100 →
       classify_new_market defaultConfig (95/100) = SniperClass.standard) ∧
     ((97:ℚ)/100 < 95/100 → classify_new_market defaultConfig (95/100) = SniperClass.skip)) :=
  ⟨by norm_num [defaultConfig],
   sniper_classification_amended defaultConfig (95/100) (by norm_num [defaultConfig])⟩

/- ---------- C6: oracle price confirmation ---------- -/

/-- C6 failing input: when exactly one oracle responds, the code returns
that single unconfirmed price instead of abstaining, contradicting both the
spec and the function's own docstring ("Only returns a price when both
sources are within 0.5% of each other"). -/
theorem oracle_single_source_fallback :
    get_btc_price_confirmed (some 50000) none = some 50000 ∧
    get_btc_price_confirmed none (some 40000) = some 40000 ∧
    get_btc_price_confirmed none none = none := ⟨rfl, rfl, rfl⟩

/- ---------- C5: paired-order timeout and the ledger ---------- -/



/-- C5 counterexample: in the one-leg-filled timeout, the unfilled leg is
cancelled and the recovery sell is submitted at the filled leg's entry
price and size, but the ledger keeps exactly one open position from the
pair no matter what becomes of the recovery sell — the recovery path never
updates the ledger, so the count is not zero even when the sell fills. -/
theorem paired_timeout_counterexample :
    (monitor_arb_fills samplePair true false).2 =
      some { token_id := "Y", side := "SELL", price := 1, size := 2 } ∧
    (monitor_arb_fills samplePair true false).1.no_leg.status = LegStatus.cancelled ∧
    (monitor_arb_fills samplePair true false).1.yes_leg.status = LegStatus.filled ∧
    countOpenFor sampleTimeoutLedger "Y" "N" = 1 ∧
    countOpenFor sampleTimeoutLedger "Y" "N" ≠ 0 := by
  refine ⟨rfl, rfl, rfl, rfl, ?_⟩
  intro h
  simp [sampleTimeoutLedger, samplePair, monitor_arb_fills, arb_track_and_settle,
    countOpenFor, open_position, emptyTracker, Position.is_open] at h

/-- C5 amended: after a paired-order timeout with exactly one leg filled —
in either direction — the unfilled leg is cancelled, a best-effort recovery
sell of the filled leg is submitted at its entry price and size, and
afterwards the ledger holds exactly one net residual position from this
pair — the filled leg — regardless of whether the recovery sell filled (the
recovery sell is submitted to the venue but never recorded in the ledger).
The first block of conjuncts settles the YES-filled/NO-cancelled outcome,
the second the NO-filled/YES-cancelled one. -/
theorem paired_timeout_amended (yes no : OrderTicket) (t : PositionTracker)
    (cid q : String) (yes_price no_price shares balance profit now : ℚ)
    (hclean : ∀ p ∈ t.positions,
      ¬(p.is_open = true ∧ (p.token_id = yes.token_id ∨ p.token_id = no.token_id))) :
    ((monitor_arb_fills ⟨yes, no⟩ true false).1.yes_leg.status = LegStatus.filled ∧
     (monitor_arb_fills ⟨yes, no⟩ true false).1.no_leg.status = LegStatus.cancelled ∧
     (monitor_arb_fills ⟨yes, no⟩ true false).2 =
       some { token_id := yes.token_id, side := "SELL", price := yes.price, size := yes.size } ∧
     countOpenFor (arb_track_and_settle t yes.token_id no.token_id cid q
         yes_price no_price shares balance profit now
         (monitor_arb_fills ⟨yes, no⟩ true false).1.yes_leg.status
         (monitor_arb_fills ⟨yes, no⟩ true false).1.no_leg.status)
       yes.token_id no.token_id = 1) ∧
    ((monitor_arb_fills ⟨yes, no⟩ false true).1.no_leg.status = LegStatus.filled ∧
     (monitor_arb_fills ⟨yes, no⟩ false true).1.yes_leg.status = LegStatus.cancelled ∧
     (monitor_arb_fills ⟨yes, no⟩ false true).2 =
       some { token_id := no.token_id, side := "SELL", price := no.price, size := no.size } ∧
     countOpenFor (arb_track_and_settle t yes.token_id no.token_id cid q
         yes_price no_price shares balance profit now
         (monitor_arb_fills ⟨yes, no⟩ false true).1.yes_leg.status
         (monitor_arb_fills ⟨yes, no⟩ false true).1.no_leg.status)
       yes.token_id no.token_id = 1) := by
  have hnil : t.positions.filter
      (fun p => p.is_open && (decide (p.token_id = yes.token_id) ||
        decide (p.token_id = no.token_id))) = [] := by
    rw [List.filter_eq_nil_iff]
    intro p hp
    have := hclean p hp
    intro hcontra
    simp only [Bool.and_eq_true, Bool.or_eq_true, decide_eq_true_eq] at hcontra
    exact this ⟨hcontra.1, hcontra.2⟩
  constructor
  · have hmon : monitor_arb_fills ⟨yes, no⟩ true false =
        ({ yes_leg := { yes with status := .filled }, no_leg := { no with status := .cancelled } },
         some { token_id := yes.token_id, side := "SELL",
                price := yes.price, size := yes.size }) := by
      simp [monitor_arb_fills]
    refine ⟨by rw [hmon], by rw [hmon], by rw [hmon], ?_⟩
    rw [hmon]
    show countOpenFor (arb_track_and_settle t yes.token_id no.token_id cid q
        yes_price no_price shares balance profit now .filled .cancelled)
      yes.token_id no.token_id = 1
    have harb : arb_track_and_settle t yes.token_id no.token_id cid q
        yes_price no_price shares balance profit now .filled .cancelled =
        open_position t yes.token_id cid q "YES" yes_price shares "sum_to_one_arb" now := by
      simp [arb_track_and_settle]
    rw [harb]
    rw [countOpenFor, open_position]
    rw [List.filter_append]
    rw [hnil]
    simp [Position.is_open]
  · have hmon : monitor_arb_fills ⟨yes, no⟩ false true =
        ({ yes_leg := { yes with status := .cancelled }, no_leg := { no with status := .filled } },
         some { token_id := no.token_id, side := "SELL",
                price := no.price, size := no.size }) := by
      simp [monitor_arb_fills]
    refine ⟨by rw [hmon], by rw [hmon], by rw [hmon], ?_⟩
    rw [hmon]
    show countOpenFor (arb_track_and_settle t yes.token_id no.token_id cid q
        yes_price no_price shares balance profit now .cancelled .filled)
      yes.token_id no.token_id = 1
    have harb : arb_track_and_settle t yes.token_id no.token_id cid q
        yes_price no_price shares balance profit now .cancelled .filled =
        open_position t no.token_id cid q "NO" no_price shares "sum_to_one_arb" now := by
      simp [arb_track_and_settle]
    rw [harb]
    rw [countOpenFor, open_position]
    rw [List.filter_append]
    rw [hnil]
    simp [Position.is_open]

/-- Witness for the amended C5 at the concrete `samplePair` tickets over an
empty ledger, exercising both one-leg-filled outcomes. -/
theorem paired_timeout_amended_witness :
    (∀ p ∈ emptyTracker.positions,
      ¬(p.is_open = true ∧ (p.token_id = samplePair.yes_leg.token_id ∨
          p.token_id = samplePair.no_leg.token_id))) ∧
    (((monitor_arb_fills ⟨samplePair.yes_leg, samplePair.no_leg⟩ true false).1.yes_leg.status =
        LegStatus.filled ∧
      (monitor_arb_fills ⟨samplePair.yes_leg, samplePair.no_leg⟩ true false).1.no_leg.status =
        LegStatus.cancelled ∧
      (monitor_arb_fills ⟨samplePair.yes_leg, samplePair.no_leg⟩ true false).2 =
        some { token_id := samplePair.yes_leg.token_id, side := "SELL",
               price := samplePair.yes_leg.price, size := samplePair.yes_leg.size } ∧
      countOpenFor (arb_track_and_settle emptyTracker samplePair.yes_leg.token_id
          samplePair.no_leg.token_id "c" "q" 1 1 2 100 0 0
          (monitor_arb_fills ⟨samplePair.yes_leg, samplePair.no_leg⟩ true false).1.yes_leg.status
          (monitor_arb_fills ⟨samplePair.yes_leg, samplePair.no_leg⟩ true false).1.no_leg.status)
        samplePair.yes_leg.token_id samplePair.no_leg.token_id = 1) ∧
     ((monitor_arb_fills ⟨samplePair.yes_leg, samplePair.no_leg⟩ false true).1.no_leg.status =
        LegStatus.filled ∧
      (monitor_arb_fills ⟨samplePair.yes_leg, samplePair.no_leg⟩ false true).1.yes_leg.status =
        LegStatus.cancelled ∧
      (monitor_arb_fills ⟨samplePair.yes_leg, samplePair.no_leg⟩ false true).2 =
        some { token_id := samplePair.no_leg.token_id, side := "SELL",
               price := samplePair.no_leg.price, size := samplePair.no_leg.size } ∧
      countOpenFor (arb_track_and_settle emptyTracker samplePair.yes_leg.token_id
          samplePair.no_leg.token_id "c" "q" 1 1 2 100 0 0
          (monitor_arb_fills ⟨samplePair.yes_leg, samplePair.no_leg⟩ false true).1.yes_leg.status
          (monitor_arb_fills ⟨samplePair.yes_leg, samplePair.no_leg⟩ false true).1.no_leg.status)
        samplePair.yes_leg.token_id samplePair.no_leg.token_id = 1)) :=
  ⟨by simp [emptyTracker],
   paired_timeout_amended samplePair.yes_leg samplePair.no_leg emptyTracker "c" "q"
     1 1 2 100 0 0 (by simp [emptyTracker])⟩

/- ---------- C1: lazy COOLDOWN to RECOVERY transition ---------- -/

/-- C1: while the risk manager is in COOLDOWN, every `check_trade` call made
strictly before the cooldown deadline rejects with the cooldown reason and
leaves the state in COOLDOWN (any sequence of such calls preserves the state
and the deadline); the first call at or after the deadline runs the gate
chain on the recovery state (state RECOVERY, recovery trades remaining set
to `RECOVERY_TRADE_COUNT`) as part of that call; and neither
`record_trade_completed` nor `set_day_start_balance` ever moves COOLDOWN to
RECOVERY. -/
theorem cooldown_lazy_recovery (cfg : Config) :
    (∀ (tr : TrackerView) (s : RMState) (trade : TradeRequest) (bal now : ℚ),
       s.state = RiskState.COOLDOWN → now < s.cooldown_until →
       check_trade cfg tr s trade bal now =
         ({ s with last_known_balance := bal }, false, some GateReason.cooldownActive) ∧
       (check_trade cfg tr s trade bal now).1.state = RiskState.COOLDOWN) ∧
    (∀ (s : RMState) (calls : List CheckCall),
       s.state = RiskState.COOLDOWN → (∀ c ∈ calls, c.now < s.cooldown_until) →
       (run_checks cfg s calls).state = RiskState.COOLDOWN ∧
       (run_checks cfg s calls).cooldown_until = s.cooldown_until) ∧
    (∀ (tr : TrackerView) (s : RMState) (trade : TradeRequest) (bal now : ℚ),
       s.state = RiskState.COOLDOWN → s.cooldown_until ≤ now →
       check_trade cfg tr s trade bal now =
         check_gates cfg tr (enter_recovery cfg { s with last_known_balance := bal })
           trade bal now ∧
       (enter_recovery cfg { s with last_known_balance := bal }).state = RiskState.RECOVERY ∧
       (enter_recovery cfg { s with last_known_balance := bal }).recovery_trades_remaining =
         cfg.RECOVERY_TRADE_COUNT) ∧
    (∀ (s : RMState) (w : Bool) (now : ℚ), s.state = RiskState.COOLDOWN →
       (record_trade_completed cfg s w now).state = RiskState.COOLDOWN) ∧
    (∀ (s : RMState) (b now : ℚ), s.state = RiskState.COOLDOWN →
       (set_day_start_balance s b now).state = RiskState.COOLDOWN) := by
  have hbefore : ∀ (tr : TrackerView) (s : RMState) (trade : TradeRequest) (bal now : ℚ),
      s.state = RiskState.COOLDOWN → now < s.cooldown_until →
      check_trade cfg tr s trade bal now =
        ({ s with last_known_balance := bal }, false, some GateReason.cooldownActive) := by
    intro tr s trade bal now hst hlt
    rw [check_trade]
    rw [if_pos (show ({ s with last_known_balance := bal } : RMState).state = .COOLDOWN from hst)]
    rw [if_pos (show now < ({ s with last_known_balance := bal } : RMState).cooldown_until from hlt)]
  refine ⟨?_, ?_, ?_, ?_, ?_⟩
  · intro tr s trade bal now hst hlt
    refine ⟨hbefore tr s trade bal now hst hlt, ?_⟩
    rw [hbefore tr s trade bal now hst hlt]
    exact hst
  · intro s calls
    induction calls generalizing s with
    | nil => intro hst _; exact ⟨hst, rfl⟩
    | cons c rest ih =>
      intro hst hall
      have hc := hall c (List.mem_cons_self _ _)
      have hstep := hbefore c.tr s c.trade c.balance c.now hst hc
      have hrun : run_checks cfg s (c :: rest) =
          run_checks cfg ({ s with last_known_balance := c.balance }) rest := by
        rw [run_checks, List.foldl_cons, hstep]
        rfl
      rw [hrun]
      have hrest := ih ({ s with last_known_balance := c.balance }) hst
        (fun x hx => hall x (List.mem_cons_of_mem _ hx))
      exact hrest
  · intro tr s trade bal now hst hge
    refine ⟨?_, rfl, rfl⟩
    rw [check_trade]
    rw [if_pos (show ({ s with last_known_balance := bal } : RMState).state = .COOLDOWN from hst)]
    rw [if_neg (show ¬ now < ({ s with last_known_balance := bal } : RMState).cooldown_until
      from not_lt.mpr hge)]
  · intro s w now hst
    rw [record_trade_completed, if_neg (by rw [hst]; intro h; exact RiskState.noConfusion h)]
    exact hst
  · intro s b now hst
    exact hst




theorem cooldown_lazy_recovery_witness :
    (sampleCooldownState.state = RiskState.COOLDOWN ∧ (10:ℚ) < sampleCooldownState.cooldown_until ∧
     check_trade defaultConfig sampleView sampleCooldownState sampleTrade 50 10 =
       ({ sampleCooldownState with last_known_balance := 50 }, false,
        some GateReason.cooldownActive)) ∧
    ((2000:ℚ) ≥ sampleCooldownState.cooldown_until ∧
     check_trade defaultConfig sampleView sampleCooldownState sampleTrade 50 2000 =
       check_gates defaultConfig sampleView
         (enter_recovery defaultConfig { sampleCooldownState with last_known_balance := 50 })
         sampleTrade 50 2000 ∧
     (enter_recovery defaultConfig
        { sampleCooldownState with last_known_balance := 50 }).state = RiskState.RECOVERY ∧
     (enter_recovery defaultConfig
        { sampleCooldownState with last_known_balance := 50 }).recovery_trades_remaining =
       defaultConfig.RECOVERY_TRADE_COUNT) ∧
    (record_trade_completed defaultConfig sampleCooldownState true 10).state =
      RiskState.COOLDOWN ∧
    (set_day_start_balance sampleCooldownState 50 10).state = RiskState.COOLDOWN := by
  refine ⟨⟨rfl, by decide, ?_⟩, ⟨by decide, ?_⟩, ?_, ?_⟩
  · exact ((cooldown_lazy_recovery defaultConfig).1 sampleView sampleCooldownState
      sampleTrade 50 10 rfl (by decide)).1
  · exact (cooldown_lazy_recovery defaultConfig).2.2.1 sampleView sampleCooldownState
      sampleTrade 50 2000 rfl (by decide)
  · exact (cooldown_lazy_recovery defaultConfig).2.2.2.1 sampleCooldownState true 10 rfl
  · exact (cooldown_lazy_recovery defaultConfig).2.2.2.2 sampleCooldownState 50 10 rfl

/- ---------- C2: RECOVERY semantics ---------- -/

theorem record_win_step (cfg : Config) (s : RMState) (now : ℚ)
    (hst : s.state = RiskState.RECOVERY) :
    record_trade_completed cfg s true now =
      (if s.recovery_trades_remaining - 1 ≤ 0 then
        ({ s with recovery_trades_remaining := s.recovery_trades_remaining - 1,
                  state := RiskState.NORMAL })
      else { s with recovery_trades_remaining := s.recovery_trades_remaining - 1 }) := by
  rw [record_trade_completed, if_pos hst]
  simp

theorem apply_wins_reaches_normal (cfg : Config) : ∀ (n : ℕ) (s : RMState) (nows : ℕ → ℚ),
    s.state = RiskState.RECOVERY → s.recovery_trades_remaining = (n : ℤ) → 1 ≤ n →
    (apply_wins cfg nows n s).state = RiskState.NORMAL := by
  intro n
  induction n with
  | zero => intro s nows _ _ h; exact absurd h (by omega)
  | succ m ih =>
    intro s nows hst hrem _
    rw [apply_wins]
    rw [record_win_step cfg s (nows 0) hst]
    by_cases hm : m = 0
    · subst hm
      rw [if_pos (by rw [hrem]; omega)]
      have : ∀ (s' : RMState) (f : ℕ → ℚ), s'.state = RiskState.NORMAL →
          (apply_wins cfg f 0 s').state = RiskState.NORMAL := by
        intro s' f h; exact h
      exact this _ _ rfl
    · rw [if_neg (by rw [hrem]; push_cast; omega)]
      exact ih _ _ hst
        (by show s.recovery_trades_remaining - 1 = (m : ℤ); rw [hrem]; push_cast; omega)
        (by omega)

theorem apply_wins_midway (cfg : Config) : ∀ (k n : ℕ) (s : RMState) (nows : ℕ → ℚ),
    s.state = RiskState.RECOVERY → s.recovery_trades_remaining = (n : ℤ) → k < n →
    (apply_wins cfg nows k s).state = RiskState.RECOVERY ∧
    (apply_wins cfg nows k s).recovery_trades_remaining = ((n - k : ℕ) : ℤ) := by
  intro k
  induction k with
  | zero =>
    intro n s nows hst hrem _
    refine ⟨hst, ?_⟩
    show s.recovery_trades_remaining = ((n - 0 : ℕ) : ℤ)
    rw [hrem]; omega
  | succ m ih =>
    intro n s nows hst hrem hlt
    rw [apply_wins]
    rw [record_win_step cfg s (nows 0) hst]
    rw [if_neg (by rw [hrem]; omega)]
    have := ih (n - 1)
      ({ s with recovery_trades_remaining := s.recovery_trades_remaining - 1 })
      (fun i => nows (i + 1)) hst
      (by show s.recovery_trades_remaining - 1 = ((n - 1 : ℕ) : ℤ); rw [hrem]; omega)
      (by omega)
    refine ⟨this.1, ?_⟩
    rw [this.2]
    omega

/-- C2: in RECOVERY the position multiplier is
`RECOVERY_POSITION_MULTIPLIER` (and 1.0 in NORMAL); starting from a freshly
entered recovery, exactly `RECOVERY_TRADE_COUNT` consecutive wins reach
NORMAL (with multiplier 1.0) while any shorter win streak stays in
RECOVERY; and a loss during RECOVERY enters a cooldown whose duration is
four times the base `COOLDOWN_MINUTES`. -/
theorem recovery_semantics (cfg : Config) :
    (∀ s : RMState, s.state = RiskState.RECOVERY →
      get_position_multiplier cfg s = cfg.RECOVERY_POSITION_MULTIPLIER) ∧
    (∀ s : RMState, s.state = RiskState.NORMAL → get_position_multiplier cfg s = 1) ∧
    (∀ (s : RMState) (nows : ℕ → ℚ) (n : ℕ),
      s.state = RiskState.RECOVERY → s.recovery_trades_remaining = (n : ℤ) → 1 ≤ n →
      (apply_wins cfg nows n s).state = RiskState.NORMAL ∧
      get_position_multiplier cfg (apply_wins cfg nows n s) = 1) ∧
    (∀ (s : RMState) (nows : ℕ → ℚ) (k n : ℕ),
      s.state = RiskState.RECOVERY → s.recovery_trades_remaining = (n : ℤ) → k < n →
      (apply_wins cfg nows k s).state = RiskState.RECOVERY) ∧
    (∀ (s : RMState) (now : ℚ), s.state = RiskState.RECOVERY →
      (record_trade_completed cfg s false now).state = RiskState.COOLDOWN ∧
      (record_trade_completed cfg s false now).cooldown_until =
        now + cfg.COOLDOWN_MINUTES * 4 * 60) := by
  refine ⟨?_, ?_, ?_, ?_, ?_⟩
  · intro s hst
    rw [get_position_multiplier, if_pos hst]
  · intro s hst
    rw [get_position_multiplier, if_neg (by rw [hst]; intro h; exact RiskState.noConfusion h)]
  · intro s nows n hst hrem hn
    have hnormal := apply_wins_reaches_normal cfg n s nows hst hrem hn
    refine ⟨hnormal, ?_⟩
    rw [get_position_multiplier,
      if_neg (by rw [hnormal]; intro h; exact RiskState.noConfusion h)]
  · intro s nows k n hst hrem hlt
    exact (apply_wins_midway cfg k n s nows hst hrem hlt).1
  · intro s now hst
    rw [record_trade_completed, if_pos hst]
    simp only [Bool.not_false, if_pos]
    constructor
    · rfl
    · show now + cfg.COOLDOWN_MINUTES * (if true then 4 else 1) * 60 = _
      norm_num


theorem recovery_semantics_witness :
    (get_position_multiplier defaultConfig sampleRecoveryState =
       defaultConfig.RECOVERY_POSITION_MULTIPLIER) ∧
    (get_position_multiplier defaultConfig { sampleRecoveryState with state := .NORMAL } = 1) ∧
    ((apply_wins defaultConfig (fun _ => 0) 5 sampleRecoveryState).state = RiskState.NORMAL ∧
     get_position_multiplier defaultConfig
       (apply_wins defaultConfig (fun _ => 0) 5 sampleRecoveryState) = 1) ∧
    ((apply_wins defaultConfig (fun _ => 0) 3 sampleRecoveryState).state =
       RiskState.RECOVERY) ∧
    ((record_trade_completed defaultConfig sampleRecoveryState false 7).state =
       RiskState.COOLDOWN ∧
     (record_trade_completed defaultConfig sampleRecoveryState false 7).cooldown_until =
       7 + defaultConfig.COOLDOWN_MINUTES * 4 * 60) := by
  refine ⟨?_, ?_, ?_, ?_, ?_⟩
  · exact (recovery_semantics defaultConfig).1 sampleRecoveryState rfl
  · exact (recovery_semantics defaultConfig).2.1 { sampleRecoveryState with state := .NORMAL } rfl
  · exact (recovery_semantics defaultConfig).2.2.1 sampleRecoveryState (fun _ => 0) 5
      rfl rfl (by decide)
  · exact (recovery_semantics defaultConfig).2.2.2.1 sampleRecoveryState (fun _ => 0) 3 5
      rfl rfl (by decide)
  · exact (recovery_semantics defaultConfig).2.2.2.2 sampleRecoveryState 7 rfl

/- ---------- C3: gate order of check_trade ---------- -/


theorem check_gates_eq_tail (cfg : Config) (tr : TrackerView) (trade : TradeRequest)
    (bal now : ℚ) (hb : 0 < bal) (s' : RMState) (D : ℚ)
    (hD : s'.day_start_balance = D) (hDpos : 0 < D) (R : Prop) [Decidable R]
    (hR : s'.state = RiskState.RECOVERY ↔ R) :
    (check_gates cfg tr s' trade bal now).2 =
      (if cfg.MAX_DAILY_DRAWDOWN_PCT ≤ (D - bal) / D then
        ((false : Bool), some GateReason.dailyDrawdown)
      else if cfg.MAX_CONSECUTIVE_LOSSES ≤ tr.consecutive_losses ∧ ¬R then
        (false, some .consecutiveLosses)
      else if cfg.MAX_SINGLE_LOSS_PCT * bal < trade.max_loss_usd then
        (false, some .singleTradeLoss)
      else if cfg.MAX_POSITION_PCT * bal < trade.cost_usd then
        (false, some .positionTooLarge)
      else if cfg.MAX_TOTAL_EXPOSURE_PCT * bal < tr.total_exposure + trade.cost_usd then
        (false, some .totalExposure)
      else if cfg.MAX_STRATEGY_EXPOSURE_PCT * bal <
          tr.strategy_exposure trade.strategy + trade.cost_usd then
        (false, some .strategyExposure)
      else if trade.cost_usd < cfg.MIN_TRADE_USD then
        (false, some .tradeTooSmall)
      else if cfg.MAX_TRADE_USD < trade.cost_usd then
        (false, some .tradeTooLarge)
      else
        (true, none)) := by
  have e1 : (0 < s'.day_start_balance ∧
      cfg.MAX_DAILY_DRAWDOWN_PCT ≤ (s'.day_start_balance - bal) / s'.day_start_balance) ↔
      (cfg.MAX_DAILY_DRAWDOWN_PCT ≤ (D - bal) / D) := by
    rw [hD]; exact and_iff_right hDpos
  have e2 : (cfg.MAX_CONSECUTIVE_LOSSES ≤ tr.consecutive_losses ∧
      s'.state ≠ RiskState.RECOVERY) ↔
      (cfg.MAX_CONSECUTIVE_LOSSES ≤ tr.consecutive_losses ∧ ¬R) :=
    and_congr_right fun _ => not_congr hR
  have e3 : (0 < bal ∧ cfg.MAX_SINGLE_LOSS_PCT < trade.max_loss_usd / bal) ↔
      (cfg.MAX_SINGLE_LOSS_PCT * bal < trade.max_loss_usd) := by
    rw [lt_div_iff₀ hb]; exact and_iff_right hb
  have e4 : (0 < bal ∧ cfg.MAX_POSITION_PCT < trade.cost_usd / bal) ↔
      (cfg.MAX_POSITION_PCT * bal < trade.cost_usd) := by
    rw [lt_div_iff₀ hb]; exact and_iff_right hb
  have e5 : (0 < bal ∧
      cfg.MAX_TOTAL_EXPOSURE_PCT < (tr.total_exposure + trade.cost_usd) / bal) ↔
      (cfg.MAX_TOTAL_EXPOSURE_PCT * bal < tr.total_exposure + trade.cost_usd) := by
    rw [lt_div_iff₀ hb]; exact and_iff_right hb
  have e6 : (0 < bal ∧ cfg.MAX_STRATEGY_EXPOSURE_PCT <
      (tr.strategy_exposure trade.strategy + trade.cost_usd) / bal) ↔
      (cfg.MAX_STRATEGY_EXPOSURE_PCT * bal <
        tr.strategy_exposure trade.strategy + trade.cost_usd) := by
    rw [lt_div_iff₀ hb]; exact and_iff_right hb
  simp only [check_gates, e1, e2, e3, e4, e5, e6]
  split_ifs <;> rfl

/-- C3: for positive balances and a positive day-start balance, the result
of `check_trade` is exactly the first triggered gate of the claimed ordered
gate list (or approval when none triggers). -/
theorem check_trade_gate_order (cfg : Config) (tr : TrackerView) (s : RMState)
    (trade : TradeRequest) (bal now : ℚ) (hb : 0 < bal)
    (hd : 0 < s.day_start_balance) :
    (check_trade cfg tr s trade bal now).2 = spec_check_trade cfg tr s trade bal now := by
  by_cases hc : s.state = RiskState.COOLDOWN
  · by_cases ht : now < s.cooldown_until
    · rw [check_trade]
      rw [if_pos (show ({ s with last_known_balance := bal } : RMState).state =
        RiskState.COOLDOWN from hc)]
      rw [if_pos (show now < ({ s with last_known_balance := bal } : RMState).cooldown_until
        from ht)]
      rw [spec_check_trade, if_pos ⟨hc, ht⟩]
    · rw [check_trade]
      rw [if_pos (show ({ s with last_known_balance := bal } : RMState).state =
        RiskState.COOLDOWN from hc)]
      rw [if_neg (show ¬ now < ({ s with last_known_balance := bal } : RMState).cooldown_until
        from ht)]
      rw [spec_check_trade, if_neg (fun h => ht h.2)]
      exact check_gates_eq_tail cfg tr trade bal now hb
        (enter_recovery cfg { s with last_known_balance := bal }) s.day_start_balance rfl hd
        (s.state = RiskState.RECOVERY ∨
          (s.state = RiskState.COOLDOWN ∧ s.cooldown_until ≤ now))
        (iff_of_true rfl (Or.inr ⟨hc, not_lt.mp ht⟩))
  · rw [check_trade]
    rw [if_neg (show ¬ ({ s with last_known_balance := bal } : RMState).state =
      RiskState.COOLDOWN from hc)]
    rw [spec_check_trade, if_neg (fun h => hc h.1)]
    refine check_gates_eq_tail cfg tr trade bal now hb
      ({ s with last_known_balance := bal }) s.day_start_balance rfl hd
      (s.state = RiskState.RECOVERY ∨
        (s.state = RiskState.COOLDOWN ∧ s.cooldown_until ≤ now)) ?_
    constructor
    · intro h; exact Or.inl h
    · intro h
      rcases h with h | ⟨h1, _⟩
      · exact h
      · exact absurd h1 hc

/-- Witness for C3 at a concrete NORMAL state and balance 50. -/
theorem check_trade_gate_order_witness :
    (0:ℚ) < 50 ∧ (0:ℚ) < ({ sampleCooldownState with state := .NORMAL } : RMState).day_start_balance ∧
    (check_trade defaultConfig sampleView { sampleCooldownState with state := .NORMAL }
        sampleTrade 50 10).2 =
      spec_check_trade defaultConfig sampleView { sampleCooldownState with state := .NORMAL }
        sampleTrade 50 10 :=
  ⟨by decide, by decide,
   check_trade_gate_order defaultConfig sampleView { sampleCooldownState with state := .NORMAL }
     sampleTrade 50 10 (by decide) (by decide)⟩

end Compounder
